import Mathlib

/-!
# Verification of the ai-prompt-proxy request rewrite engine and credential subsystem

This file is a shallow embedding, in Lean 4, of the parts of the
`ai-prompt-proxy` Go repository that the verified properties talk about:

* the JSON rewrite engine (`internal/proxy/util.go`: `injectPrompt`,
  `replaceModelID`, `extractModelID`),
* the proxy front-end dispatch and API-key middleware
  (`internal/proxy/server.go`, the logging-enabled revision wired by `main`),
* model-record validation (`internal/config/config.go`: `ModelConfig.Validate`),
* the config store conversions and update
  (`internal/db/models.go`, `internal/db/manager.go`),
* the credential lookups (`internal/db/manager.go`: `GetAPIKeyByValue`) and the
  admin user listing (`internal/service/auth_service.go`: `GetAllUsers`).

JSON documents are modelled as trees (`JVal`).  The request bodies handled by
the proxy are manipulated through the `gjson`/`sjson` libraries with plain
dot-separated paths; a path is modelled by its list of segments, and the
libraries' behaviour on such paths (`gjson.Get`, `sjson.Set`) is modelled by
`getPath` and `setPath` below.  JSON objects are association lists kept in
insertion order; Go's map serialization may reorder keys on the wire, which is
JSON-semantically irrelevant and not observed by any property here.
-/

set_option autoImplicit false

/-- A JSON value.  Numbers are payload-opaque in every code path treated here
and are carried as integers. -/
inductive JVal where
  | null
  | bool (b : Bool)
  | num (n : Int)
  | str (s : String)
  | arr (elems : List JVal)
  | obj (fields : List (String × JVal))

namespace JVal

/-- Whether the value is a JSON string (gjson result type `String`). -/
def isStr : JVal → Bool
  | .str _ => true
  | _ => false

/-- Whether the value is a JSON array (gjson `result.IsArray()`). -/
def isArr : JVal → Bool
  | .arr _ => true
  | _ => false

/-- `reflect.Kind().String()` of the Go runtime representation of the value
(`map[string]interface{}` for objects, `[]interface{}` for arrays, `float64`
for numbers).  A nil interface (JSON null) never reaches `reflect.TypeOf` in
the Go code; the `"invalid"` arm is unreachable from the modelled program. -/
def kindName : JVal → String
  | .null => "invalid"
  | .bool _ => "bool"
  | .num _ => "float64"
  | .str _ => "string"
  | .arr _ => "slice"
  | .obj _ => "map"

end JVal

/-- First value bound to `key` in an object's field list (JSON object member
lookup, as performed by `gjson` on a plain path segment). -/
def lookupField (key : String) : List (String × JVal) → Option JVal
  | [] => none
  | (k, v) :: rest => if k = key then some v else lookupField key rest

/-- Replace the first binding of `key` in place, or append a new binding at the
end (how `sjson` edits an object member). -/
def setField (key : String) (val : JVal) : List (String × JVal) → List (String × JVal)
  | [] => [(key, val)]
  | (k, v) :: rest => if k = key then (k, val) :: rest else (k, v) :: setField key val rest

/-- `gjson.Get` on a plain dot-separated path (the only path form the
repository uses): descend through object members by key and through array
elements by decimal index.  `none` models a non-existent path (gjson result
type `Null` with `Exists() = false`). -/
def getPath : List String → JVal → Option JVal
  | [], v => some v
  | seg :: rest, JVal.obj fields =>
    match lookupField seg fields with
    | some v => getPath rest v
    | none => none
  | seg :: rest, JVal.arr elems =>
    match seg.toNat? with
    | some i =>
      match elems[i]? with
      | some v => getPath rest v
      | none => none
    | none => none
  | _ :: _, _ => none

/-- The document `sjson.Set` builds for the missing suffix of a path: nested
one-member objects around the value. -/
def buildPath : List String → JVal → JVal
  | [], val => val
  | seg :: rest, val => JVal.obj [(seg, buildPath rest val)]

/-- `sjson.Set` on a plain dot-separated path: replace the value at the path,
creating missing members; existing members are edited in place, so all other
parts of the document are untouched.  Out-of-range array indices pad with
`null` (sjson's behaviour); no property below exercises that arm. -/
def setPath : List String → JVal → JVal → JVal
  | [], val, _ => val
  | seg :: rest, val, JVal.obj fields =>
    match lookupField seg fields with
    | some child => JVal.obj (setField seg (setPath rest val child) fields)
    | none => JVal.obj (fields ++ [(seg, buildPath rest val)])
  | seg :: rest, val, JVal.arr elems =>
    match seg.toNat? with
    | some i =>
      if i < elems.length then
        JVal.arr (elems.set i (setPath rest val (elems.getD i JVal.null)))
      else
        JVal.arr (elems ++ List.replicate (i - elems.length) JVal.null ++ [buildPath rest val])
    | none => buildPath (seg :: rest) val
  | seg :: rest, val, _ => buildPath (seg :: rest) val

/-- One character of a JSON string literal (minimal escaping; only feeds the
cosmetic `encodeJVal`). -/
def escapeChar (c : Char) : String :=
  if c = '"' then "\\\""
  else if c = '\\' then "\\\\"
  else if c = '\n' then "\\n"
  else String.singleton c

/-- JSON string literal for `s`. -/
def encodeJString (s : String) : String :=
  "\"" ++ String.join (s.data.map escapeChar) ++ "\""

mutual

/-- JSON text of a value (models the raw text `gjson` reports for composite
values; exact formatting is never relied upon). -/
def encodeJVal : JVal → String
  | .null => "null"
  | .bool b => cond b "true" "false"
  | .num n => toString n
  | .str s => encodeJString s
  | .arr xs => "[" ++ encodeElems xs ++ "]"
  | .obj fs => "\x7b" ++ encodeFields fs ++ "\x7d"

def encodeElems : List JVal → String
  | [] => ""
  | [x] => encodeJVal x
  | x :: xs => encodeJVal x ++ "," ++ encodeElems xs

def encodeFields : List (String × JVal) → String
  | [] => ""
  | [(k, v)] => encodeJString k ++ ":" ++ encodeJVal v
  | (k, v) :: fs => encodeJString k ++ ":" ++ encodeJVal v ++ "," ++ encodeFields fs

end

/-- The dot-separated source text of a path (used in error messages;
`cfg.PromptPath` is a string in Go). -/
def pathToString (path : List String) : String :=
  String.intercalate "." path

/-! ## `internal/config/config.go` — model records -/

def ModelTypeChat : String := "chat"
def ModelTypeImage : String := "image"
def ModelTypeAudio : String := "audio"
def ModelTypeVideo : String := "video"

def ValueTypeString : String := "string"
def ValueTypeArray : String := "array"
def ValueTypeObject : String := "object"

/-- `config.ModelConfig`.  `PromptValue` is an `interface{}` in Go holding a
decoded JSON/YAML value; the nil interface (absent value, which is also how a
literal JSON `null` decodes) is `none`.  `PromptPath` is a dot-separated path,
modelled by its segment list. -/
structure ModelConfig where
  id : String
  name : String
  target : String
  prompt : String
  url : String
  type : String
  promptPath : List String
  promptValue : Option JVal
  promptValueType : String

/-! ## `internal/proxy/util.go` — the rewrite engine -/

/-- Lines 16–32 of `injectPrompt`: resolve the prompt value and its declared
type, synthesizing defaults from `cfg.Prompt` and `cfg.Type` when
`cfg.PromptValue` is nil. -/
def resolvePromptValue (cfg : ModelConfig) : Except String (JVal × String) :=
  match cfg.promptValue with
  | some v => Except.ok (v, cfg.promptValueType)
  | none =>
    if cfg.type = ModelTypeChat then
      Except.ok (JVal.obj [("role", JVal.str "system"), ("content", JVal.str cfg.prompt)],
        ValueTypeArray)
    else if cfg.type = ModelTypeImage || cfg.type = ModelTypeAudio then
      Except.ok (JVal.str cfg.prompt, ValueTypeString)
    else
      Except.error ("unsupported model type: " ++ cfg.type)

/-- `injectPrompt` (util.go lines 14–106).  The resolved value's runtime shape
selects the branch (`reflect.TypeOf(val).Kind()`): `Map` for objects, `String`
for strings, anything else is rejected.  `gjson` reports both a missing path
and a literal `null` as type `Null`, hence the `none | some .null` arms.

In the object branch's missing-path case with declared type `string`, the Go
code marshals the value to JSON bytes and passes the `[]byte` to `sjson.Set`,
which splices a `[]byte` argument as a raw JSON block: the path receives the
value itself (not a quoted JSON string). -/
def injectPrompt (body : JVal) (cfg : ModelConfig) : Except String JVal :=
  match resolvePromptValue cfg with
  | Except.error e => Except.error e
  | Except.ok (val, valType) =>
    match val with
    | JVal.obj _ =>
      match getPath cfg.promptPath body with
      | some (JVal.arr elems) =>
        Except.ok (setPath cfg.promptPath (JVal.arr (val :: elems)) body)
      | none | some JVal.null =>
        if valType = "" ∨ valType = ValueTypeArray then
          Except.ok (setPath cfg.promptPath (JVal.arr [val]) body)
        else if valType = ValueTypeObject then
          Except.ok (setPath cfg.promptPath val body)
        else if valType = ValueTypeString then
          Except.ok (setPath cfg.promptPath val body)
        else
          Except.error ("unsupported prompt value type: " ++ valType)
      | some _ =>
        Except.error ("prompt path " ++ pathToString cfg.promptPath ++ " is not an array")
    | JVal.str s =>
      match getPath cfg.promptPath body with
      | some (JVal.str existing) =>
        Except.ok (setPath cfg.promptPath (JVal.str (s ++ "\n" ++ existing)) body)
      | none | some JVal.null =>
        Except.ok (setPath cfg.promptPath (JVal.str s) body)
      | some _ =>
        Except.error ("prompt path " ++ pathToString cfg.promptPath ++ " is not a string")
    | _ =>
      Except.error ("unsupported prompt value type: " ++ JVal.kindName val)

/-- `replaceModelID` (util.go lines 108–115): set the top-level `model` member
to the target id (`sjson.Set` errs only on an empty path, which `"model"` is
not). -/
def replaceModelID (body : JVal) (target : String) : JVal :=
  setPath ["model"] (JVal.str target) body

/-- `gjson` `Result.String()`. -/
def gjsonResultString : JVal → String
  | JVal.null => ""
  | JVal.bool b => cond b "true" "false"
  | JVal.num n => toString n
  | JVal.str s => s
  | v => encodeJVal v

/-- `extractModelID` (util.go lines 117–124): top-level `model` member as a
string, `""` when absent. -/
def extractModelID (body : JVal) : String :=
  match getPath ["model"] body with
  | some v => gjsonResultString v
  | none => ""

/-- The two-pass rewrite applied by the proxy handler: `injectPrompt` followed
by `replaceModelID` with the record's target. -/
def rewriteRequest (body : JVal) (cfg : ModelConfig) : Except String JVal :=
  (injectPrompt body cfg).map (fun b => replaceModelID b cfg.target)

/-! ## `internal/db/models.go` — users and API keys (data model) -/

/-- `db.User` (part of `models.go`).  Times are modelled as naturals. -/
structure User where
  id : Nat
  username : String
  password : String
  isAdmin : Bool
  isEnabled : Bool
  lastLoginAt : Option Nat
  createdBy : Nat
  createdAt : Nat
  updatedAt : Nat
deriving DecidableEq

/-- `db.APIKey` (part of `models.go`).  `expiresAt = none` means the key never
expires. -/
structure APIKey where
  id : Nat
  userID : Nat
  name : String
  keyValue : String
  isEnabled : Bool
  lastUsedAt : Option Nat
  expiresAt : Option Nat
deriving DecidableEq

/-! ## `internal/db/manager.go` — lookups over the store

The SQL store is modelled by the list of its rows in table order; GORM's
`First` returns the first row matching the `Where` clause. -/

/-- `Manager.GetAPIKeyByValue` (manager.go lines 337–348): the `Where` clause
filters on `key_value = ? AND is_enabled = true`; there is no expiry
condition. -/
def getAPIKeyByValue (keys : List APIKey) (keyValue : String) : Except String APIKey :=
  match keys.find? (fun k => k.keyValue == keyValue && k.isEnabled) with
  | some k => Except.ok k
  | none => Except.error "API Key不存在或已禁用"

/-! ## `internal/service/auth_service.go` — the user listing -/

/-- `service.UserInfo` (auth_service.go): the projection of a `User` returned
by the admin listing (everything but the password hash). -/
structure UserInfo where
  id : Nat
  username : String
  isAdmin : Bool
  isEnabled : Bool
  lastLoginAt : Option Nat
  createdBy : Nat
  createdAt : Nat
  updatedAt : Nat
deriving DecidableEq

def toUserInfo (u : User) : UserInfo :=
  { id := u.id, username := u.username, isAdmin := u.isAdmin, isEnabled := u.isEnabled,
    lastLoginAt := u.lastLoginAt, createdBy := u.createdBy,
    createdAt := u.createdAt, updatedAt := u.updatedAt }

/-- `AuthService.GetAllUsers` (auth_service.go lines 433–461): fetch all rows
and keep those with `!user.IsAdmin` (the store's `created_at DESC` ordering
does not affect membership and is not modelled). -/
def getAllUsers (users : List User) : List UserInfo :=
  (users.filter (fun u => !u.isAdmin)).map toUserInfo

/-! ## `internal/proxy/server.go` — middleware and dispatch

The repository carries two revisions of the proxy server; the current one
(the revision whose `NewServer(cfg, authService)` signature `main` calls, and
which wires the access-log middleware) is the one modelled here. -/

/-- Outcome of the API-key middleware for one request: reject with an HTTP
status and error message, or pass the request on with the key owner's user id
attached to the context. -/
inductive AuthResult where
  | reject (status : Nat) (msg : String)
  | allow (userID : Nat)
deriving DecidableEq

/-- `apiKeyAuthMiddleware`, from the `X-Proxy-Key` header on (an absent header
reads as `""`); `now` is the clock the expiry check reads.  The unreachable
nil-service guard is not modelled.  `time.Now().After(t)` is the strict
comparison `t < now`. -/
def apiKeyAuthMiddleware (keys : List APIKey) (apiKey : String) (now : Nat) : AuthResult :=
  if apiKey = "" then
    AuthResult.reject 401 "缺少认证信息，请在请求头中添加X-Proxy-Key或Authorization Bearer token"
  else
    match getAPIKeyByValue keys apiKey with
    | Except.error _ => AuthResult.reject 401 "无效的API Key"
    | Except.ok info =>
      if !info.isEnabled then
        AuthResult.reject 401 "API Key已被禁用"
      else
        match info.expiresAt with
        | some t => if t < now then AuthResult.reject 401 "API Key已过期" else AuthResult.allow info.userID
        | none => AuthResult.allow info.userID

/-- `Config.GetModel` (config.go lines 190–193): lookup in the model-record
snapshot, modelled as an association list keyed by model id. -/
def getModel (models : List (String × ModelConfig)) (modelID : String) : Option ModelConfig :=
  match models with
  | [] => none
  | (k, cfg) :: rest => if k = modelID then some cfg else getModel rest modelID

/-- Outcome of `proxyHandler` for one request: an error reply sent straight to
the client (no upstream call), or a dispatch of the rewritten body to the
record's upstream URL. -/
inductive ProxyResult where
  | reply (status : Nat) (errMsg : String)
  | forward (upstreamURL : String) (body : JVal)

/-- `proxyHandler` of the current server revision: extract the model id,
look up the record, rewrite (`injectPrompt` then `replaceModelID`), and
forward.  The `reply` messages are the `error` members of the JSON bodies the
handler sends.  URL parsing and the upstream HTTP exchange lie beyond the
dispatch decision and are abstracted into `forward`. -/
def proxyHandler (models : List (String × ModelConfig)) (body : JVal) : ProxyResult :=
  let modelID := extractModelID body
  match getModel models modelID with
  | none => ProxyResult.reply 404 ("模型配置未找到: " ++ modelID)
  | some cfg =>
    match injectPrompt body cfg with
    | Except.error e => ProxyResult.reply 500 ("注入Prompt失败: " ++ e)
    | Except.ok b1 => ProxyResult.forward cfg.url (replaceModelID b1 cfg.target)

/-! ## `internal/db/models.go` — the model-record table and its conversions

The `prompt_value` column holds JSON text; it is modelled by the JSON value
that text encodes, `none` standing for the empty string.  `json.Marshal` of a
non-nil Go value always produces non-empty text that `json.Unmarshal` parses
back to the same JSON tree, so the marshal/unmarshal pair is the identity in
this representation; the `ToModelConfig` fallback that keeps unparsable
hand-written column text as a plain string is unreachable from columns written
by `FromModelConfig`. -/

/-- `db.ModelConfigDB` (models.go lines 10–23). -/
structure ModelConfigDB where
  id : String
  name : String
  target : String
  prompt : String
  url : String
  type : String
  promptPath : List String
  promptValue : Option JVal
  promptValueType : String
  createdAt : Nat
  updatedAt : Nat

/-- `ModelConfigDB.ToModelConfig` (models.go lines 30–51).  A column holding
the text `null` unmarshals to the nil interface, i.e. an absent prompt
value. -/
def ModelConfigDB.toModelConfig (m : ModelConfigDB) : ModelConfig :=
  { id := m.id, name := m.name, target := m.target, prompt := m.prompt, url := m.url,
    type := m.type, promptPath := m.promptPath,
    promptValue :=
      match m.promptValue with
      | none => none
      | some JVal.null => none
      | some v => some v,
    promptValueType := m.promptValueType }

/-- `ModelConfigDB.FromModelConfig` (models.go lines 54–77): a nil
`PromptValue` is stored as the empty string column (`none`); otherwise the
value's JSON text is stored.  Timestamps are store-managed and zero here. -/
def fromModelConfig (cfg : ModelConfig) : ModelConfigDB :=
  { id := cfg.id, name := cfg.name, target := cfg.target, prompt := cfg.prompt, url := cfg.url,
    type := cfg.type, promptPath := cfg.promptPath, promptValue := cfg.promptValue,
    promptValueType := cfg.promptValueType, createdAt := 0, updatedAt := 0 }

/-- `Manager.UpdateModelConfig` (manager.go lines 141–166): overwrite the row
with the columns named in the `Select` list — `name, target, prompt, url,
type, prompt_path, prompt_value, prompt_value_type` — taken from
`FromModelConfig`; `id` and the store-managed timestamps stay. -/
def updateModelConfig (existing : ModelConfigDB) (cfg : ModelConfig) : ModelConfigDB :=
  let dbm := fromModelConfig cfg
  { existing with
    name := dbm.name, target := dbm.target, prompt := dbm.prompt, url := dbm.url,
    type := dbm.type, promptPath := dbm.promptPath, promptValue := dbm.promptValue,
    promptValueType := dbm.promptValueType }

/-! ## `internal/config/config.go` — `ModelConfig.Validate` -/

/-- Scheme/host split of a URL: the text before the first `://` and the host
chunk after it.  Modelled from the spec: the `url` field must parse (net/url)
with non-empty scheme and host; the full generality of `net/url.Parse` is
external to the repository. -/
def findSchemeSplit : List Char → Option (List Char × List Char)
  | [] => none
  | ':' :: '/' :: '/' :: rest => some ([], rest)
  | c :: rest =>
    match findSchemeSplit rest with
    | some (scheme, host) => some (c :: scheme, host)
    | none => none

/-- `u.Scheme != "" && u.Host != ""` after parsing: `scheme://host...` with
non-empty scheme and host. -/
def urlSchemeHostNonempty (url : String) : Bool :=
  match findSchemeSplit url.toList with
  | some (scheme, rest) => !scheme.isEmpty && !(rest.takeWhile (fun c => c ≠ '/')).isEmpty
  | none => false

/-- `ModelConfig.Validate` (config.go lines 42–90).  In the chat branch that
fills defaults for an empty `prompt_path`, the Go code builds
`map[string]interface{}{"role": "system", "content": m.PromptValue}` — the
`content` member is the field `m.PromptValue` that was just found to be nil,
i.e. JSON null, not the `m.Prompt` text. -/
def ModelConfig.validate (m : ModelConfig) : Except String ModelConfig :=
  if m.id = "" then Except.error "模型ID不能为空"
  else if m.name = "" then Except.error "模型名称不能为空"
  else if m.target = "" then Except.error "目标模型ID不能为空"
  else if m.url = "" then Except.error "转发的URL不能为空"
  else if !urlSchemeHostNonempty m.url then Except.error ("转发的URL无效: " ++ m.url)
  else
    let m := if m.type = "" then { m with type := ModelTypeChat } else m
    if m.type = ModelTypeChat ∨ m.type = ModelTypeImage ∨
        m.type = ModelTypeAudio ∨ m.type = ModelTypeVideo then
      let m :=
        if m.promptPath = [] then
          if m.type = ModelTypeChat then
            let m := { m with promptPath := ["messages"] }
            match m.promptValue with
            | none =>
              let pv := JVal.obj [("role", JVal.str "system"), ("content", JVal.null)]
              { m with promptValue := some pv }
            | some _ => m
          else if m.type = ModelTypeImage then
            { m with promptPath := ["prompt"] }
          else m
        else m
      Except.ok m
    else Except.error ("无效的模型类型: " ++ m.type)


/-! ## Concrete instances (spec end-to-end scenarios and store samples) -/

/-- End-to-end scenario 1's record: `{id:"X", target:"gpt-3.5-turbo", kind:chat,
prompt_path:"messages", prompt_value:{role:"system",content:"You are X."},
prompt_value_type:object}`. -/
def chatRecordX : ModelConfig :=
  { id := "X", name := "X", target := "gpt-3.5-turbo", prompt := "", url := "https://api.openai.com/v1/chat/completions",
    type := "chat", promptPath := ["messages"],
    promptValue := some (JVal.obj [("role", JVal.str "system"), ("content", JVal.str "You are X.")]),
    promptValueType := "object" }

/-- Scenario 1's request body. -/
def chatRequest1 : JVal :=
  JVal.obj [("model", JVal.str "X"),
    ("messages", JVal.arr [JVal.obj [("role", JVal.str "user"), ("content", JVal.str "hi")]])]

/-- Scenario 1's expected upstream body. -/
def chatUpstream1 : JVal :=
  JVal.obj [("model", JVal.str "gpt-3.5-turbo"),
    ("messages", JVal.arr
      [JVal.obj [("role", JVal.str "system"), ("content", JVal.str "You are X.")],
       JVal.obj [("role", JVal.str "user"), ("content", JVal.str "hi")]])]

/-- End-to-end scenario 3's record: `{id:"I", target:"img-v1", kind:image,
prompt_path:"prompt", prompt_value:"SAFE:", prompt_value_type:string}`. -/
def imageRecordI : ModelConfig :=
  { id := "I", name := "I", target := "img-v1", prompt := "", url := "https://img.example.com/v1",
    type := "image", promptPath := ["prompt"],
    promptValue := some (JVal.str "SAFE:"), promptValueType := "string" }

/-- Scenario 3's request body. -/
def imageRequest3 : JVal := JVal.obj [("model", JVal.str "I"), ("prompt", JVal.str "a cat")]

/-- Scenario 3's expected upstream body. -/
def imageUpstream3 : JVal :=
  JVal.obj [("model", JVal.str "img-v1"), ("prompt", JVal.str "SAFE:\na cat")]

/-- A record whose `prompt_path` is the top-level `model` key itself. -/
def modelPathRecord : ModelConfig :=
  { id := "M", name := "M", target := "t", prompt := "", url := "https://api.example.com/v1",
    type := "chat", promptPath := ["model"],
    promptValue := some (JVal.obj [("role", JVal.str "system")]), promptValueType := "object" }

/-- A request whose top-level `model` member is an array. -/
def modelPathBody : JVal := JVal.obj [("model", JVal.arr [JVal.str "X"])]

/-- Scenario 1's record with declared `prompt_value_type` `string`. -/
def stringTypedRecord : ModelConfig := { chatRecordX with promptValueType := "string" }

/-- A record with a present `prompt_value` of array (Go slice) runtime shape. -/
def arrayValuedRecord : ModelConfig :=
  { chatRecordX with promptValue := some (JVal.arr [JVal.str "hello"]) }

/-- A chat record reaching `Validate`'s defaulting branch: empty `prompt_path`,
nil `prompt_value`, non-empty prompt text. -/
def chatDefaultCfg : ModelConfig :=
  { id := "X", name := "X", target := "gpt-3.5-turbo", prompt := "You are X.",
    url := "https://api.openai.com/v1/chat/completions", type := "chat",
    promptPath := [], promptValue := none, promptValueType := "" }

/-- What `Validate` actually produces on `chatDefaultCfg`: the defaulted
message object carries `content: null`, not the record's prompt text. -/
def chatDefaultValidated : ModelConfig :=
  let pv := JVal.obj [("role", JVal.str "system"), ("content", JVal.null)]
  { chatDefaultCfg with promptPath := ["messages"], promptValue := some pv }

/-- An enabled API key whose expiry lies in the past for any clock after 5. -/
def expiredKey : APIKey :=
  { id := 1, userID := 7, name := "ops", keyValue := "abc",
    isEnabled := true, lastUsedAt := none, expiresAt := some 5 }

/-- A disabled API key. -/
def disabledKey : APIKey :=
  { id := 2, userID := 7, name := "old", keyValue := "def",
    isEnabled := false, lastUsedAt := none, expiresAt := none }

/-- The bootstrap admin account (first registered user; `created_by = 0`). -/
def bootstrapAdmin : User :=
  { id := 1, username := "root", password := "h1", isAdmin := true, isEnabled := true,
    lastLoginAt := none, createdBy := 0, createdAt := 10, updatedAt := 10 }

/-- A second admin account created later by the bootstrap admin. -/
def secondAdmin : User :=
  { id := 2, username := "ops", password := "h2", isAdmin := true, isEnabled := true,
    lastLoginAt := none, createdBy := 1, createdAt := 20, updatedAt := 20 }

/-- A non-admin account. -/
def plainUser : User :=
  { id := 3, username := "dev", password := "h3", isAdmin := false, isEnabled := true,
    lastLoginAt := none, createdBy := 1, createdAt := 30, updatedAt := 30 }

/-- A user table holding the bootstrap admin, a second admin, and a plain
user. -/
def sampleUsers : List User := [bootstrapAdmin, secondAdmin, plainUser]

/-- A stored row used to exercise the update path. -/
def sampleRow : ModelConfigDB :=
  { id := "X", name := "old", target := "old-target", prompt := "old", url := "https://old.example.com",
    type := "chat", promptPath := ["messages"],
    promptValue := some (JVal.str "old value"), promptValueType := "string",
    createdAt := 3, updatedAt := 4 }

/-- A record with an explicitly cleared `prompt_value`. -/
def clearedCfg : ModelConfig :=
  { id := "X", name := "X", target := "gpt-4", prompt := "p", url := "https://api.example.com/v1",
    type := "chat", promptPath := ["messages"], promptValue := none, promptValueType := "" }

/-- A request naming a model id with no record in the snapshot. -/
def unknownRequest : JVal := JVal.obj [("model", JVal.str "unknown")]

/-! ## Properties of the path primitives -/

theorem lookupField_setField_self (key : String) (val : JVal) (fs : List (String × JVal)) :
    lookupField key (setField key val fs) = some val := by
  induction fs with
  | nil => simp [setField, lookupField]
  | cons p rest ih =>
    obtain ⟨k, v⟩ := p
    by_cases h : k = key
    · simp [setField, h, lookupField]
    · simp [setField, h, lookupField, ih]

theorem lookupField_setField_ne (key other : String) (val : JVal) (fs : List (String × JVal))
    (h : other ≠ key) :
    lookupField other (setField key val fs) = lookupField other fs := by
  induction fs with
  | nil => simp [setField, lookupField, Ne.symm h]
  | cons p rest ih =>
    obtain ⟨k, v⟩ := p
    by_cases hk : k = key
    · subst hk
      simp [setField, lookupField, Ne.symm h]
    · by_cases hko : k = other
      · simp [setField, hk, lookupField, hko, h]
      · simp [setField, hk, lookupField, hko, ih]

theorem lookupField_append_self (key : String) (val : JVal) (fs : List (String × JVal))
    (h : lookupField key fs = none) :
    lookupField key (fs ++ [(key, val)]) = some val := by
  induction fs with
  | nil => simp [lookupField]
  | cons p rest ih =>
    obtain ⟨k, v⟩ := p
    by_cases hk : k = key
    · rw [lookupField, if_pos hk] at h
      exact absurd h (by simp)
    · rw [List.cons_append, lookupField, if_neg hk]
      rw [lookupField, if_neg hk] at h
      exact ih h

theorem lookupField_append_ne (key other : String) (val : JVal) (fs : List (String × JVal))
    (h : other ≠ key) :
    lookupField other (fs ++ [(key, val)]) = lookupField other fs := by
  induction fs with
  | nil => simp [lookupField, Ne.symm h]
  | cons p rest ih =>
    obtain ⟨k, v⟩ := p
    by_cases hko : k = other
    · simp [lookupField, hko]
    · simp [lookupField, hko, ih]

theorem getPath_buildPath (p : List String) (v : JVal) :
    getPath p (buildPath p v) = some v := by
  induction p with
  | nil => rfl
  | cons seg rest ih => simp [buildPath, getPath, lookupField, ih]

/-- Reading back the path just written: `setPath` always places the value where
`getPath` finds it. -/
theorem getPath_setPath (p : List String) (v : JVal) (j : JVal) :
    getPath p (setPath p v j) = some v := by
  induction p generalizing j with
  | nil => rfl
  | cons seg rest ih =>
    cases j with
    | obj fields =>
      cases hl : lookupField seg fields with
      | some child =>
        simp [setPath, hl, getPath, lookupField_setField_self, ih]
      | none =>
        simp [setPath, hl, getPath, lookupField_append_self seg _ fields hl, getPath_buildPath]
    | arr elems =>
      cases hn : seg.toNat? with
      | some i =>
        by_cases hlt : i < elems.length
        · simp [setPath, hn, hlt, getPath, List.getElem?_set_self, ih]
        · have hge : elems.length ≤ i := Nat.le_of_not_lt hlt
          have h1 : (elems ++ (List.replicate (i - elems.length) JVal.null ++ [buildPath rest v]))[i]? =
              (List.replicate (i - elems.length) JVal.null ++ [buildPath rest v])[i - elems.length]? :=
            List.getElem?_append_right hge
          have h2 : (List.replicate (i - elems.length) JVal.null ++ [buildPath rest v])[i - elems.length]? =
              [buildPath rest v][(0 : Nat)]? := by
            rw [List.getElem?_append_right (by simp)]
            simp
          simp only [setPath, hn, hlt, if_false, getPath, List.append_assoc, h1, h2]
          simp [getPath_buildPath rest v]
      | none => simp [setPath, hn, getPath_buildPath]
    | null => simp [setPath, getPath_buildPath]
    | bool b => simp [setPath, getPath_buildPath]
    | num n => simp [setPath, getPath_buildPath]
    | str s => simp [setPath, getPath_buildPath]

/-- Writing under one top-level key of an object does not change what any other
top-level key resolves to. -/
theorem getPath_setPath_obj_ne (k seg : String) (t rest : List String) (v : JVal)
    (fields : List (String × JVal)) (h : k ≠ seg) :
    getPath (k :: t) (setPath (seg :: rest) v (JVal.obj fields)) =
      getPath (k :: t) (JVal.obj fields) := by
  cases hl : lookupField seg fields with
  | some child => simp [setPath, hl, getPath, lookupField_setField_ne seg k _ _ h]
  | none => simp [setPath, hl, getPath, lookupField_append_ne seg k _ _ h]

/-- Writing a non-empty path into an object yields an object. -/
theorem setPath_obj_shape (seg : String) (rest : List String) (v : JVal)
    (fields : List (String × JVal)) :
    ∃ gs, setPath (seg :: rest) v (JVal.obj fields) = JVal.obj gs := by
  cases hl : lookupField seg fields with
  | some child =>
    exact ⟨setField seg (setPath rest v child) fields, by simp [setPath, hl]⟩
  | none =>
    exact ⟨fields ++ [(seg, buildPath rest v)], by simp [setPath, hl]⟩

/-! ## The verified properties -/

/-- Claim C2: a proxy request whose top-level `model` id has no matching
record in the snapshot is answered with HTTP 404, the error body echoing the
offending id, and is never dispatched upstream. -/
theorem proxyHandler_missing_model_404
    (models : List (String × ModelConfig)) (body : JVal)
    (h : getModel models (extractModelID body) = none) :
    proxyHandler models body =
      ProxyResult.reply 404 ("模型配置未找到: " ++ extractModelID body) ∧
    ∀ u b, proxyHandler models body ≠ ProxyResult.forward u b := by
  constructor
  · simp [proxyHandler, h]
  · intro u b
    simp [proxyHandler, h]

/-- Witness for C2: the empty snapshot and the request `{"model":"unknown"}`. -/
theorem proxyHandler_missing_model_404_witness :
    proxyHandler [] unknownRequest = ProxyResult.reply 404 "模型配置未找到: unknown" :=
  (proxyHandler_missing_model_404 [] unknownRequest rfl).1

/-- Claim C4 (code evaluation at the failing input): on a chat record with
empty `prompt_path`, nil `prompt_value` and prompt text `"You are X."`,
`Validate` fills `prompt_path = "messages"` but sets the defaulted message
object's `content` to JSON null — the nil value `m.PromptValue` held a moment
before the assignment — instead of the record's prompt text. -/
theorem validate_chat_default_content_null :
    ModelConfig.validate chatDefaultCfg = Except.ok chatDefaultValidated ∧
    ((ModelConfig.validate chatDefaultCfg).toOption.bind ModelConfig.promptValue).bind
        (fun pv => match pv with | JVal.obj fs => lookupField "content" fs | _ => none) =
      some JVal.null :=
  ⟨rfl, rfl⟩

/-- Claim C5: a request presenting an `X-Proxy-Key` whose key record is
disabled, or whose `expires_at` lies before the request-time clock, is rejected
with HTTP 401 by the middleware and never passed on.  The key-value uniqueness
hypothesis is the store's `uniqueIndex` on `key_value`. -/
theorem apiKeyAuthMiddleware_disabled_or_expired_401
    (keys : List APIKey) (k : APIKey) (now : Nat)
    (hmem : k ∈ keys)
    (huniq : ∀ k' ∈ keys, k'.keyValue = k.keyValue → k' = k)
    (hbad : k.isEnabled = false ∨ ∃ t, k.expiresAt = some t ∧ t < now) :
    (∃ msg, apiKeyAuthMiddleware keys k.keyValue now = AuthResult.reject 401 msg) ∧
    ∀ uid, apiKeyAuthMiddleware keys k.keyValue now ≠ AuthResult.allow uid := by
  have main : ∃ msg, apiKeyAuthMiddleware keys k.keyValue now = AuthResult.reject 401 msg := by
    by_cases hempty : k.keyValue = ""
    · exact ⟨"缺少认证信息，请在请求头中添加X-Proxy-Key或Authorization Bearer token",
        by simp [apiKeyAuthMiddleware, hempty]⟩
    · cases hfind : keys.find? (fun k' => k'.keyValue == k.keyValue && k'.isEnabled) with
      | none =>
        exact ⟨"无效的API Key", by simp [apiKeyAuthMiddleware, hempty, getAPIKeyByValue, hfind]⟩
      | some found =>
        have hp := List.find?_some hfind
        have hmem' := List.mem_of_find?_eq_some hfind
        rw [Bool.and_eq_true, beq_iff_eq] at hp
        have hfk : found = k := huniq found hmem' hp.1
        subst hfk
        rcases hbad with hdis | ⟨t, hexp, hlt⟩
        · rw [hp.2] at hdis
          cases hdis
        · refine ⟨"API Key已过期", ?_⟩
          simp [apiKeyAuthMiddleware, hempty, getAPIKeyByValue, hfind, hp.2, hexp, hlt]
  refine ⟨main, ?_⟩
  intro uid hallow
  obtain ⟨msg, hrej⟩ := main
  rw [hallow] at hrej
  cases hrej

/-- Witness for C5: the disabled key `disabledKey` in a two-key store at clock
100. -/
theorem apiKeyAuthMiddleware_disabled_or_expired_401_witness :
    ∃ msg, apiKeyAuthMiddleware [expiredKey, disabledKey] disabledKey.keyValue 100 =
      AuthResult.reject 401 msg :=
  (apiKeyAuthMiddleware_disabled_or_expired_401 [expiredKey, disabledKey] disabledKey 100
    (by decide) (by decide) (Or.inl rfl)).1

/-- Counterexample to claim C6 as stated: `GetAPIKeyByValue` happily returns
`expiredKey` — enabled but expired at any clock past 5 — because its `Where`
clause never looks at `expires_at` (nor at any clock at all). -/
theorem getAPIKeyByValue_returns_expired_counterexample :
    getAPIKeyByValue [expiredKey] "abc" = Except.ok expiredKey ∧
    expiredKey.expiresAt = some 5 ∧ 5 < 100 :=
  ⟨rfl, rfl, by decide⟩

/-- Claim C6, amended: the lookup by secret never returns a disabled key —
any key it returns is enabled and carries the requested secret — and when
every key holding the secret is disabled it returns the
not-found-or-disabled error.  Expired keys are returned; expiry is enforced
afterwards by the proxy middleware, not by the lookup. -/
theorem getAPIKeyByValue_excludes_disabled_only :
    (∀ (keys : List APIKey) (kv : String) (k : APIKey),
      getAPIKeyByValue keys kv = Except.ok k → k.isEnabled = true ∧ k.keyValue = kv) ∧
    (∀ (keys : List APIKey) (kv : String),
      (∀ k ∈ keys, k.keyValue = kv → k.isEnabled = false) →
      getAPIKeyByValue keys kv = Except.error "API Key不存在或已禁用") := by
  constructor
  · intro keys kv k hok
    unfold getAPIKeyByValue at hok
    cases hfind : keys.find? (fun k' => k'.keyValue == kv && k'.isEnabled) with
    | none => rw [hfind] at hok; cases hok
    | some found =>
      rw [hfind] at hok
      cases hok
      have hp := List.find?_some hfind
      rw [Bool.and_eq_true, beq_iff_eq] at hp
      exact ⟨hp.2, hp.1⟩
  · intro keys kv hall
    unfold getAPIKeyByValue
    have : keys.find? (fun k' => k'.keyValue == kv && k'.isEnabled) = none := by
      rw [List.find?_eq_none]
      intro k hk
      rw [Bool.and_eq_true, beq_iff_eq]
      rintro ⟨hkv, hen⟩
      rw [hall k hk hkv] at hen
      cases hen
    rw [this]

/-- Witness for C6's amended statement: the store `[disabledKey]` holds only a
disabled key with secret `"def"`, so the lookup errs. -/
theorem getAPIKeyByValue_excludes_disabled_only_witness :
    getAPIKeyByValue [disabledKey] "def" = Except.error "API Key不存在或已禁用" :=
  getAPIKeyByValue_excludes_disabled_only.2 [disabledKey] "def" (by decide)

/-- Counterexample to claim C9 as stated: `secondAdmin` is not the bootstrap
account (`created_by = 1`, not `0`), yet the listing omits it. -/
theorem getAllUsers_bootstrap_only_counterexample :
    secondAdmin ∈ sampleUsers ∧ secondAdmin.createdBy ≠ 0 ∧
    (getAllUsers sampleUsers).all (fun info => info.id != secondAdmin.id) = true := by
  refine ⟨?_, by decide, by decide⟩
  exact List.Mem.tail _ (List.Mem.head _)

/-- Claim C9, amended: the admin listing includes a stored user exactly when
the user is not an admin — every admin account is excluded, not only the
bootstrap one. -/
theorem getAllUsers_excludes_admins
    (users : List User) (u : User)
    (hu : u ∈ users) (hnodup : (users.map User.id).Nodup) :
    (∃ info ∈ getAllUsers users, info.id = u.id) ↔ u.isAdmin = false := by
  constructor
  · rintro ⟨info, hinfo, hid⟩
    obtain ⟨u', hu', hinfo'⟩ := List.mem_map.mp hinfo
    obtain ⟨hu'mem, hu'adm⟩ := List.mem_filter.mp hu'
    have : u'.id = u.id := by rw [← hinfo'] at hid; exact hid
    have heq : u' = u := List.inj_on_of_nodup_map hnodup hu'mem hu this
    subst heq
    simpa using hu'adm
  · intro hadm
    refine ⟨toUserInfo u, ?_, rfl⟩
    exact List.mem_map.mpr ⟨u, List.mem_filter.mpr ⟨hu, by simp [hadm]⟩, rfl⟩

/-- Witness for C9's amended statement: `plainUser` is listed, being no
admin. -/
theorem getAllUsers_excludes_admins_witness :
    plainUser.isAdmin = false ∧ ∃ info ∈ getAllUsers sampleUsers, info.id = plainUser.id :=
  ⟨rfl, (getAllUsers_excludes_admins sampleUsers plainUser
    (List.Mem.tail _ (List.Mem.tail _ (List.Mem.head _))) (by decide)).mpr rfl⟩

/-- Claim C8: writing a record and reading it back restores every
non-timestamp field exactly; the update path names `prompt_value` among its
updated columns, so a cleared value (stored as the empty-string column)
survives an update over a row that previously held one.  The hypothesis
excludes `some JVal.null`, which Go's `interface{}` cannot hold distinctly
from the nil interface (`none`). -/
theorem modelConfig_roundtrip_and_update
    (cfg : ModelConfig) (row : ModelConfigDB)
    (hnull : cfg.promptValue ≠ some JVal.null) :
    (fromModelConfig cfg).toModelConfig = cfg ∧
    (row.id = cfg.id → (updateModelConfig row cfg).toModelConfig = cfg) ∧
    (cfg.promptValue = none → (fromModelConfig cfg).promptValue = none) ∧
    (updateModelConfig row cfg).promptValue = (fromModelConfig cfg).promptValue := by
  obtain ⟨cid, cname, ctarget, cprompt, curl, ctype, cpath, cpv, cpvt⟩ := cfg
  refine ⟨?_, ?_, ?_, rfl⟩
  · cases cpv with
    | none => rfl
    | some v => cases v <;> first | rfl | exact absurd rfl hnull
  · intro hid
    obtain ⟨rid, rname, rtarget, rprompt, rurl, rtype, rpath, rpv, rpvt, rc, ru⟩ := row
    simp only at hid
    subst hid
    cases cpv with
    | none => rfl
    | some v => cases v <;> first | rfl | exact absurd rfl hnull
  · intro h
    simp only at h
    subst h
    rfl

/-- Witness for C8: the cleared record `clearedCfg` round-trips through save
and through an update over `sampleRow`, whose old column held a value. -/
theorem modelConfig_roundtrip_and_update_witness :
    (fromModelConfig clearedCfg).toModelConfig = clearedCfg ∧
    (updateModelConfig sampleRow clearedCfg).toModelConfig = clearedCfg ∧
    (updateModelConfig sampleRow clearedCfg).promptValue = none := by
  have h := modelConfig_roundtrip_and_update clearedCfg sampleRow (by simp [clearedCfg])
  exact ⟨h.1, h.2.1 rfl, by rw [h.2.2.2]; exact h.2.2.1 rfl⟩

/-- Claim C10: `injectPrompt` picks its merge rule from the runtime shape of
the present `prompt_value` alone.  A slice-, number- or boolean-shaped value is
rejected with the unsupported-value error whatever the declared type says; for
string-shaped values the declared type is never consulted; for object-shaped
values it is consulted only when the path resolves to nothing (gjson `Null`). -/
theorem injectPrompt_shape_dispatch :
    (∀ (cfg : ModelConfig) (body : JVal) (elems : List JVal),
      cfg.promptValue = some (JVal.arr elems) →
      injectPrompt body cfg = Except.error "unsupported prompt value type: slice") ∧
    (∀ (cfg : ModelConfig) (body : JVal) (n : Int),
      cfg.promptValue = some (JVal.num n) →
      injectPrompt body cfg = Except.error "unsupported prompt value type: float64") ∧
    (∀ (cfg : ModelConfig) (body : JVal) (b : Bool),
      cfg.promptValue = some (JVal.bool b) →
      injectPrompt body cfg = Except.error "unsupported prompt value type: bool") ∧
    (∀ (cfg : ModelConfig) (body : JVal) (s t : String),
      cfg.promptValue = some (JVal.str s) →
      injectPrompt body { cfg with promptValueType := t } = injectPrompt body cfg) ∧
    (∀ (cfg : ModelConfig) (body : JVal) (m : List (String × JVal)) (w : JVal) (t : String),
      cfg.promptValue = some (JVal.obj m) → getPath cfg.promptPath body = some w →
      w ≠ JVal.null →
      injectPrompt body { cfg with promptValueType := t } = injectPrompt body cfg) := by
  refine ⟨?_, ?_, ?_, ?_, ?_⟩
  · intro cfg body elems h
    simp [injectPrompt, resolvePromptValue, h, JVal.kindName]
  · intro cfg body n h
    simp [injectPrompt, resolvePromptValue, h, JVal.kindName]
  · intro cfg body b h
    simp [injectPrompt, resolvePromptValue, h, JVal.kindName]
  · intro cfg body s t h
    simp [injectPrompt, resolvePromptValue, h]
  · intro cfg body m w t h hget hw
    cases w with
    | null => exact absurd rfl hw
    | bool b => simp [injectPrompt, resolvePromptValue, h, hget]
    | num n => simp [injectPrompt, resolvePromptValue, h, hget]
    | str s => simp [injectPrompt, resolvePromptValue, h, hget]
    | arr elems => simp [injectPrompt, resolvePromptValue, h, hget]
    | obj fs => simp [injectPrompt, resolvePromptValue, h, hget]

/-- Witness for C10: a record whose present `prompt_value` is a Go slice is
rejected. -/
theorem injectPrompt_shape_dispatch_witness :
    injectPrompt chatRequest1 arrayValuedRecord =
      Except.error "unsupported prompt value type: slice" :=
  injectPrompt_shape_dispatch.1 arrayValuedRecord chatRequest1 [JVal.str "hello"] rfl

/-- Counterexample to claim C3 as stated: with declared type `string` and an
absent path, the marshalled value is spliced as raw JSON — the path receives
the object itself, not a JSON string. -/
theorem injectPrompt_string_type_raw_splice_counterexample :
    injectPrompt (JVal.obj []) stringTypedRecord =
      Except.ok (JVal.obj [("messages",
        JVal.obj [("role", JVal.str "system"), ("content", JVal.str "You are X.")])]) ∧
    ((injectPrompt (JVal.obj []) stringTypedRecord).toOption.bind
        (fun r => getPath ["messages"] r)).map JVal.isStr = some false :=
  ⟨rfl, rfl⟩

/-- Claim C3, amended: object-shaped `prompt_value` and an absent path
materialize the path by declared type — `""`/`array` as a one-element array,
`object` as the value itself, `string` as the value's JSON encoding spliced as
raw JSON (hence the value itself, not a quoted JSON string), and any other
declared type fails with the unsupported-type error. -/
theorem injectPrompt_obj_path_absent_materialize
    (cfg : ModelConfig) (body : JVal) (m : List (String × JVal))
    (hv : cfg.promptValue = some (JVal.obj m))
    (hget : getPath cfg.promptPath body = none) :
    ((cfg.promptValueType = "" ∨ cfg.promptValueType = ValueTypeArray) →
      injectPrompt body cfg =
        Except.ok (setPath cfg.promptPath (JVal.arr [JVal.obj m]) body)) ∧
    (cfg.promptValueType = ValueTypeObject →
      injectPrompt body cfg = Except.ok (setPath cfg.promptPath (JVal.obj m) body)) ∧
    (cfg.promptValueType = ValueTypeString →
      injectPrompt body cfg = Except.ok (setPath cfg.promptPath (JVal.obj m) body)) ∧
    (cfg.promptValueType ≠ "" → cfg.promptValueType ≠ ValueTypeArray →
      cfg.promptValueType ≠ ValueTypeObject → cfg.promptValueType ≠ ValueTypeString →
      injectPrompt body cfg =
        Except.error ("unsupported prompt value type: " ++ cfg.promptValueType)) := by
  have hred : injectPrompt body cfg =
      (if cfg.promptValueType = "" ∨ cfg.promptValueType = ValueTypeArray then
        Except.ok (setPath cfg.promptPath (JVal.arr [JVal.obj m]) body)
      else if cfg.promptValueType = ValueTypeObject then
        Except.ok (setPath cfg.promptPath (JVal.obj m) body)
      else if cfg.promptValueType = ValueTypeString then
        Except.ok (setPath cfg.promptPath (JVal.obj m) body)
      else Except.error ("unsupported prompt value type: " ++ cfg.promptValueType)) := by
    simp [injectPrompt, resolvePromptValue, hv, hget]
  refine ⟨?_, ?_, ?_, ?_⟩
  · intro h
    rw [hred, if_pos h]
  · intro h
    rw [hred, h]
    simp [ValueTypeObject, ValueTypeArray]
  · intro h
    rw [hred, h]
    simp [ValueTypeString, ValueTypeArray, ValueTypeObject]
  · intro h1 h2 h3 h4
    rw [hred, if_neg (not_or.mpr ⟨h1, h2⟩), if_neg h3, if_neg h4]

/-- Witness for C3's amended statement: declared type `string`, object value,
absent path. -/
theorem injectPrompt_obj_path_absent_materialize_witness :
    injectPrompt (JVal.obj [("stream", JVal.bool true)]) stringTypedRecord =
      Except.ok (setPath ["messages"]
        (JVal.obj [("role", JVal.str "system"), ("content", JVal.str "You are X.")])
        (JVal.obj [("stream", JVal.bool true)])) :=
  (injectPrompt_obj_path_absent_materialize stringTypedRecord
    (JVal.obj [("stream", JVal.bool true)])
    [("role", JVal.str "system"), ("content", JVal.str "You are X.")] rfl rfl).2.2.1 rfl

/-- Claim C7: with a string-shaped resolved `prompt_value`, a string site is
replaced by `value + "\n" + existing`, an absent site is set to the value, and
any other non-null site shape fails with the path-shape error. -/
theorem injectPrompt_string_value_rules
    (cfg : ModelConfig) (body : JVal) (s t : String)
    (hres : resolvePromptValue cfg = Except.ok (JVal.str s, t)) :
    (∀ e, getPath cfg.promptPath body = some (JVal.str e) →
      injectPrompt body cfg =
        Except.ok (setPath cfg.promptPath (JVal.str (s ++ "\n" ++ e)) body)) ∧
    (getPath cfg.promptPath body = none →
      injectPrompt body cfg = Except.ok (setPath cfg.promptPath (JVal.str s) body)) ∧
    (∀ w, getPath cfg.promptPath body = some w → w.isStr = false → w ≠ JVal.null →
      injectPrompt body cfg =
        Except.error ("prompt path " ++ pathToString cfg.promptPath ++ " is not a string")) := by
  refine ⟨?_, ?_, ?_⟩
  · intro e hget
    simp [injectPrompt, hres, hget]
  · intro hget
    simp [injectPrompt, hres, hget]
  · intro w hget hstr hnull
    cases w with
    | null => exact absurd rfl hnull
    | str e => simp [JVal.isStr] at hstr
    | bool b => simp [injectPrompt, hres, hget]
    | num n => simp [injectPrompt, hres, hget]
    | arr elems => simp [injectPrompt, hres, hget]
    | obj fs => simp [injectPrompt, hres, hget]

/-- Witness for C7: end-to-end scenario 3 — the request
`{"model":"I","prompt":"a cat"}` under record `I` rewrites to
`{"model":"img-v1","prompt":"SAFE:\na cat"}`, the injection step being the
theorem's string-prepend rule. -/
theorem injectPrompt_string_value_rules_witness :
    rewriteRequest imageRequest3 imageRecordI = Except.ok imageUpstream3 ∧
    injectPrompt imageRequest3 imageRecordI =
      Except.ok (setPath ["prompt"] (JVal.str "SAFE:\na cat") imageRequest3) := by
  refine ⟨rfl, ?_⟩
  have h := (injectPrompt_string_value_rules imageRecordI imageRequest3 "SAFE:" "string"
    rfl).1 "a cat" rfl
  exact h

/-- Counterexample to claim C1 as stated: when `prompt_path` is the top-level
`model` key itself, the second pass overwrites the freshly prepended array, so
the output's value at `prompt_path` is no array at all. -/
theorem rewriteRequest_promptPath_model_counterexample :
    rewriteRequest modelPathBody modelPathRecord =
      Except.ok (JVal.obj [("model", JVal.str "t")]) ∧
    getPath modelPathRecord.promptPath modelPathBody = some (JVal.arr [JVal.str "X"]) ∧
    (getPath ["model"] (JVal.obj [("model", JVal.str "t")])).map JVal.isArr = some false :=
  ⟨rfl, rfl, rfl⟩

/-- Claim C1, amended with the proviso that `prompt_path` does not start at
the top-level `model` key: the rewrite prepends the object-shaped
`prompt_value` to the array at `prompt_path`, sets the top-level `model` to
the record's target, and leaves every other top-level member unchanged. -/
theorem rewriteRequest_obj_array_prepend
    (cfg : ModelConfig) (bodyFields m : List (String × JVal)) (xs : List JVal)
    (hv : cfg.promptValue = some (JVal.obj m))
    (hget : getPath cfg.promptPath (JVal.obj bodyFields) = some (JVal.arr xs))
    (hhead : cfg.promptPath.head? ≠ some "model") :
    ∃ out, rewriteRequest (JVal.obj bodyFields) cfg = Except.ok out ∧
      getPath cfg.promptPath out = some (JVal.arr (JVal.obj m :: xs)) ∧
      getPath ["model"] out = some (JVal.str cfg.target) ∧
      ∀ k, k ≠ "model" → cfg.promptPath.head? ≠ some k →
        getPath [k] out = getPath [k] (JVal.obj bodyFields) := by
  cases hpath : cfg.promptPath with
  | nil =>
    rw [hpath] at hget
    simp [getPath] at hget
  | cons seg rest =>
    rw [hpath] at hget hhead
    have hseg : seg ≠ "model" := by simpa using hhead
    have hinj : injectPrompt (JVal.obj bodyFields) cfg =
        Except.ok (setPath (seg :: rest) (JVal.arr (JVal.obj m :: xs)) (JVal.obj bodyFields)) := by
      simp [injectPrompt, resolvePromptValue, hv, hpath, hget]
    obtain ⟨mid, hmid⟩ := setPath_obj_shape seg rest (JVal.arr (JVal.obj m :: xs)) bodyFields
    refine ⟨replaceModelID
        (setPath (seg :: rest) (JVal.arr (JVal.obj m :: xs)) (JVal.obj bodyFields)) cfg.target,
      ?_, ?_, ?_, ?_⟩
    · simp [rewriteRequest, hinj, Except.map]
    · unfold replaceModelID
      rw [hmid, getPath_setPath_obj_ne seg "model" rest [] (JVal.str cfg.target) mid hseg,
        ← hmid]
      exact getPath_setPath (seg :: rest) _ _
    · unfold replaceModelID
      rw [hmid]
      exact getPath_setPath ["model"] _ _
    · intro k hk hkhead
      have hkseg : k ≠ seg := by
        intro he
        exact hkhead (by rw [he]; rfl)
      unfold replaceModelID
      rw [hmid, getPath_setPath_obj_ne k "model" [] [] (JVal.str cfg.target) mid hk, ← hmid,
        getPath_setPath_obj_ne k seg [] rest (JVal.arr (JVal.obj m :: xs)) bodyFields hkseg]

/-- Witness for C1's amended statement: end-to-end scenario 1 — the chat
request rewrites to the expected upstream body, and the theorem's conclusions
hold at that instance. -/
theorem rewriteRequest_obj_array_prepend_witness :
    rewriteRequest chatRequest1 chatRecordX = Except.ok chatUpstream1 ∧
    (∃ out, rewriteRequest chatRequest1 chatRecordX = Except.ok out ∧
      getPath chatRecordX.promptPath out =
        some (JVal.arr (JVal.obj [("role", JVal.str "system"), ("content", JVal.str "You are X.")] ::
          [JVal.obj [("role", JVal.str "user"), ("content", JVal.str "hi")]])) ∧
      getPath ["model"] out = some (JVal.str chatRecordX.target) ∧
      ∀ k, k ≠ "model" → chatRecordX.promptPath.head? ≠ some k →
        getPath [k] out = getPath [k] chatRequest1) := by
  refine ⟨rfl, ?_⟩
  have h := rewriteRequest_obj_array_prepend chatRecordX
    [("model", JVal.str "X"),
     ("messages", JVal.arr [JVal.obj [("role", JVal.str "user"), ("content", JVal.str "hi")]])]
    [("role", JVal.str "system"), ("content", JVal.str "You are X.")]
    [JVal.obj [("role", JVal.str "user"), ("content", JVal.str "hi")]]
    rfl rfl (by decide)
  exact h
